import Mathlib

/-!
Verification development for the playwright-docker repository.

The repository is a Node/Express service (src/index.js) that stores TikTok
session cookies in a Supabase table, translates browser-extension cookie
exports into Playwright cookies, and drives a Playwright browser.

This file gives a shallow embedding of the parts with stable contracts:

* a model of the JavaScript values that flow through the cookie translator
  (`JSVal`, `JSNum`); JS numbers are modelled as extended rationals
  (NaN / +Infinity / -Infinity / finite rational) rather than IEEE-754
  doubles, and the `Number(string)` grammar is approximated by a plain
  decimal parser (no hex or exponent forms) -- no property proved below
  depends on either approximation;
* the cookie translator `mapSameSite` / `toPlaywrightCookiesStrict`
  (src/index.js lines 32-62), translated line by line;
* a model of the Supabase table `tiktok_sessions` as a keyed upsert/lookup
  service (upsert with onConflict platform,account; select ordered by id
  descending with limit 1), and the wrappers `upsertSession` /
  `loadSession` (src/index.js lines 81-105);
* a control-flow model of the browser-using request handlers
  `getContextWithSession`, `tiktokFetchComments` and `tiktokReply`
  (src/index.js lines 247-270, 371-411, 414-480), with the opaque browser
  operations (goto, addCookies, selector counts) supplied by an
  environment, recording launch/click/close events.
-/

/-- A JavaScript number: NaN, the two infinities, or a finite value
(modelled as an exact rational; IEEE-754 rounding is not modelled). -/
inductive JSNum where
  | nan
  | posInf
  | negInf
  | fin (q : ℚ)
deriving DecidableEq, Repr

/-- A JavaScript value of the shapes that reach the cookie utilities. -/
inductive JSVal where
  | undef
  | null
  | boolean (b : Bool)
  | number (n : JSNum)
  | string (s : String)
deriving DecidableEq, Repr

/-- JS truthiness of a value (`!!v`, `if (v)`). -/
def jsTruthy : JSVal → Bool
  | JSVal.undef => false
  | JSVal.null => false
  | JSVal.boolean b => b
  | JSVal.number JSNum.nan => false
  | JSVal.number (JSNum.fin q) => decide (q ≠ 0)
  | JSVal.number _ => true
  | JSVal.string s => decide (0 < s.length)

/-- JS nullish coalescing `v ?? w`. -/
def jsNullish (v w : JSVal) : JSVal :=
  match v with
  | JSVal.undef => w
  | JSVal.null => w
  | _ => v

/-- JS `String()` applied to a number. Exact on NaN, the infinities and
integral values; non-integral rationals use the Lean rational repr as an
approximation of the IEEE shortest decimal (nothing below depends on it). -/
def numToString : JSNum → String
  | JSNum.nan => "NaN"
  | JSNum.posInf => "Infinity"
  | JSNum.negInf => "-Infinity"
  | JSNum.fin q => if q.den = 1 then toString q.num else toString q

/-- JS `String()` conversion. -/
def jsToString : JSVal → String
  | JSVal.undef => "undefined"
  | JSVal.null => "null"
  | JSVal.boolean b => if b then "true" else "false"
  | JSVal.number n => numToString n
  | JSVal.string s => s

/-- Value of a list of decimal digit characters, or `none` when some
character is not a digit. The empty list evaluates to `some 0`; callers
reject it where JS would. -/
def digitsVal : List Char → Option Nat
  | cs =>
    cs.foldl
      (fun acc c =>
        match acc with
        | some a => if c.isDigit then some (a * 10 + (c.toNat - 48)) else none
        | none => none)
      (some 0)

/-- JS `Number()` applied to a string: trimmed, empty means 0, optional
sign, `Infinity`, or a decimal number. Approximation: hex and exponent
forms are not recognised (they become NaN here); no property proved below
depends on string-to-number conversion. -/
def jsStringToNumber (s : String) : JSNum :=
  let t := s.trim
  if t = "" then JSNum.fin 0
  else
    let (sgn, body) :=
      match t.toList with
      | '-' :: rest => ((-1 : ℚ), rest)
      | '+' :: rest => ((1 : ℚ), rest)
      | l => ((1 : ℚ), l)
    if body = "Infinity".toList then
      if sgn = 1 then JSNum.posInf else JSNum.negInf
    else
      let intPart := body.takeWhile Char.isDigit
      let rest := body.dropWhile Char.isDigit
      match rest with
      | [] =>
        if intPart.isEmpty then JSNum.nan
        else
          match digitsVal intPart with
          | some n => JSNum.fin (sgn * n)
          | none => JSNum.nan
      | '.' :: fracPart =>
        if fracPart.all Char.isDigit then
          if intPart.isEmpty ∧ fracPart.isEmpty then JSNum.nan
          else
            let ip := (digitsVal intPart).getD 0
            let fp := (digitsVal fracPart).getD 0
            JSNum.fin (sgn * ((ip : ℚ) + (fp : ℚ) / ((10 : ℚ) ^ fracPart.length)))
        else JSNum.nan
      | _ => JSNum.nan

/-- JS `Number()` conversion. -/
def jsToNumber : JSVal → JSNum
  | JSVal.undef => JSNum.nan
  | JSVal.null => JSNum.fin 0
  | JSVal.boolean b => JSNum.fin (if b then 1 else 0)
  | JSVal.number n => n
  | JSVal.string s => jsStringToNumber s

/-- One raw cookie object as read by the translator: the seven properties
src/index.js accesses, each an arbitrary JS value (`undef` when the
property is missing). -/
structure RawCookie where
  name : JSVal
  value : JSVal
  httpOnly : JSVal
  secure : JSVal
  sameSite : JSVal
  expirationDate : JSVal
  expiry : JSVal
deriving DecidableEq, Repr

/-- A raw cookie with every property missing. -/
def undefCookie : RawCookie :=
  { name := JSVal.undef, value := JSVal.undef, httpOnly := JSVal.undef,
    secure := JSVal.undef, sameSite := JSVal.undef,
    expirationDate := JSVal.undef, expiry := JSVal.undef }

/-- One element of the raw input array: either a cookie object or a
primitive JS value (on which every property read yields `undefined`). -/
inductive JSItem where
  | obj (c : RawCookie)
  | prim (v : JSVal)
deriving DecidableEq, Repr

/-- JS truthiness of an array element (objects are always truthy). -/
def JSItem.truthy : JSItem → Bool
  | JSItem.obj _ => true
  | JSItem.prim v => jsTruthy v

/-- Property read `c.name`. -/
def JSItem.getName : JSItem → JSVal
  | JSItem.obj c => c.name
  | JSItem.prim _ => JSVal.undef

/-- Property read `c.value`. -/
def JSItem.getValue : JSItem → JSVal
  | JSItem.obj c => c.value
  | JSItem.prim _ => JSVal.undef

/-- Property read `c.httpOnly`. -/
def JSItem.getHttpOnly : JSItem → JSVal
  | JSItem.obj c => c.httpOnly
  | JSItem.prim _ => JSVal.undef

/-- Property read `c.secure`. -/
def JSItem.getSecure : JSItem → JSVal
  | JSItem.obj c => c.secure
  | JSItem.prim _ => JSVal.undef

/-- Property read `c.sameSite`. -/
def JSItem.getSameSite : JSItem → JSVal
  | JSItem.obj c => c.sameSite
  | JSItem.prim _ => JSVal.undef

/-- Property read `c.expirationDate`. -/
def JSItem.getExpirationDate : JSItem → JSVal
  | JSItem.obj c => c.expirationDate
  | JSItem.prim _ => JSVal.undef

/-- Property read `c.expiry`. -/
def JSItem.getExpiry : JSItem → JSVal
  | JSItem.obj c => c.expiry
  | JSItem.prim _ => JSVal.undef

/-- src/index.js line 30: the fixed anchor URL. -/
def TTK_BASE_URL : String := "https://www.tiktok.com/"

/-- ASCII lowercasing of one character. -/
def lowerChar (c : Char) : Char :=
  if 'A' ≤ c ∧ c ≤ 'Z' then Char.ofNat (c.toNat + 32) else c

/-- JS `toLowerCase()`, restricted to ASCII case folding (the tokens the
translator compares against are all ASCII). -/
def asciiToLower (s : String) : String :=
  String.mk (s.data.map lowerChar)

/-- src/index.js lines 32-39: `mapSameSite`. -/
def mapSameSite (v : JSVal) : Option String :=
  if v = JSVal.undef ∨ v = JSVal.null then none
  else
    let s := asciiToLower (jsToString v)
    if s = "lax" then some "Lax"
    else if s = "strict" then some "Strict"
    else if s = "no_restriction" ∨ s = "none" then some "None"
    else none

/-- The normalized cookie object built by the translator. `sameSite` and
`expires` are `none` when the corresponding property is not set. -/

@[ext]
structure PWCookie where
  name : String
  value : String
  url : String
  httpOnly : Bool
  secure : Bool
  sameSite : Option String
  expires : Option Int
deriving DecidableEq, Repr

/-- JS truthiness of an `Option String` (a possibly-undefined string). -/
def optStrTruthy : Option String → Bool
  | some s => decide (0 < s.length)
  | none => false

/-- src/index.js line 44: the filter predicate
`c && typeof c.name === "string" && c.name.length > 0 && c.value !== undefined`. -/
def keepEntry (c : JSItem) : Bool :=
  c.truthy &&
  (match c.getName with
   | JSVal.string s => decide (0 < s.length)
   | _ => false) &&
  decide (c.getValue ≠ JSVal.undef)

/-- src/index.js lines 45-61: the body of the `.map` in
`toPlaywrightCookiesStrict`. -/
def translateEntry (c : JSItem) : PWCookie :=
  let ss := mapSameSite c.getSameSite
  let exp := jsToNumber (jsNullish c.getExpirationDate c.getExpiry)
  { name := jsToString c.getName
    value := jsToString (jsNullish c.getValue (JSVal.string ""))
    url := TTK_BASE_URL
    httpOnly := jsTruthy c.getHttpOnly
    secure := if ss = some "None" then true else jsTruthy c.getSecure
    sameSite := if optStrTruthy ss then ss else none
    expires :=
      match exp with
      | JSNum.fin q =>
        if 0 < q then
          let q2 : ℚ := if (10 : ℚ) ^ 12 < q then ((⌊q / 1000⌋ : ℤ) : ℚ) else q
          some ⌊q2⌋
        else none
      | _ => none }

/-- src/index.js lines 42-62: `toPlaywrightCookiesStrict`. -/
def toPlaywrightCookiesStrict (raw : List JSItem) : List PWCookie :=
  (raw.filter keepEntry).map translateEntry

/-- Modelled from the spec wording of the filter (for comparison with the
source predicate `keepEntry`): an entry is kept exactly when its `name` is
a string of positive length and its `value` is not undefined. -/
def specKeepsEntry (c : JSItem) : Bool :=
  (match c.getName with
   | JSVal.string s => decide (0 < s.length)
   | _ => false) &&
  decide (c.getValue ≠ JSVal.undef)

def cNoneLower : JSItem :=
  JSItem.obj { undefCookie with
    name := JSVal.string "sid", value := JSVal.string "v",
    secure := JSVal.boolean false, sameSite := JSVal.string "none" }

def cSec : JSItem :=
  JSItem.obj { undefCookie with
    name := JSVal.string "a", value := JSVal.string "b",
    expirationDate := JSVal.number (JSNum.fin 1700000000) }

def cStrictUp : JSItem :=
  JSItem.obj { undefCookie with
    name := JSVal.string "a", value := JSVal.string "b",
    sameSite := JSVal.string "STRICT" }

def cNoSame : JSItem :=
  JSItem.obj { undefCookie with name := JSVal.string "a", value := JSVal.string "b" }

def rawC9 : JSItem :=
  JSItem.obj { undefCookie with
    name := JSVal.string "sessionid", value := JSVal.string "abc",
    sameSite := JSVal.string "no_restriction",
    expirationDate := JSVal.number (JSNum.fin 1999999999000) }

def cNullVal : RawCookie :=
  { undefCookie with name := JSVal.string "tok", value := JSVal.null }

/-!
## Session store

The backing store is the external Supabase/Postgres table
`tiktok_sessions`. The spec treats it as an opaque keyed upsert/lookup
service, so it is modelled here as such: a list of rows with ids that grow
with insertion; `upsert` with conflict key (platform, account) replaces
the conflicting row in place (keeping its id) or inserts a fresh row;
`select ... order by id desc limit 1` takes the head of the id-descending
sort of the matching rows.
-/

/-- One row of the `tiktok_sessions` table. -/
structure SessionRow where
  id : Nat
  platform : String
  account : String
  cookies : List JSItem
  user_agent : Option String
deriving DecidableEq, Repr

/-- The store: current rows plus the next fresh id. -/
structure Store where
  rows : List SessionRow
  nextId : Nat
deriving DecidableEq, Repr

def Store.empty : Store := { rows := [], nextId := 1 }

/-- The conflict key `platform,account`. -/
def sameKey (r : SessionRow) (p a : String) : Bool :=
  r.platform == p && r.account == a

/-- `.upsert(row, onConflict: platform,account)`: a conflicting row is
fully replaced in place (its id kept, no field-level merge), otherwise the
row is inserted with a fresh id. Returns the new store and the row the
query hands back via `.select().limit(1)`. -/
def Store.upsert (st : Store) (p a : String) (cookies : List JSItem)
    (ua : Option String) : Store × SessionRow :=
  match st.rows.find? (fun r => sameKey r p a) with
  | some old =>
    let newRow : SessionRow := { old with cookies := cookies, user_agent := ua }
    ({ st with rows := st.rows.map fun r => if sameKey r p a then newRow else r }, newRow)
  | none =>
    let newRow : SessionRow :=
      { id := st.nextId, platform := p, account := a,
        cookies := cookies, user_agent := ua }
    ({ rows := st.rows ++ [newRow], nextId := st.nextId + 1 }, newRow)

/-- JS `user_agent || null` (an empty string is falsy and becomes null). -/
def uaOrNull : Option String → Option String
  | some s => if 0 < s.length then some s else none
  | none => none

/-- src/index.js lines 81-92: `upsertSession`. Throws when Supabase is not
configured; the `cookies must be an array` check is a type invariant of
the model (`cookies` is a list by construction). -/
def upsertSession (cfg : Bool) (st : Store) (p a : String) (cookies : List JSItem)
    (ua : Option String) : Except String (Store × SessionRow) :=
  if cfg then Except.ok (st.upsert p a cookies (uaOrNull ua))
  else Except.error "Supabase not configured"

/-- The projection `select('cookies,user_agent')`. -/
structure SessionView where
  cookies : List JSItem
  user_agent : Option String
deriving DecidableEq, Repr

def rowView (r : SessionRow) : SessionView :=
  { cookies := r.cookies, user_agent := r.user_agent }

/-- The rows matching (platform, account), ordered by id descending
(`.eq(platform).eq(account).order('id', ascending: false)`). -/
def Store.select (st : Store) (p a : String) : List SessionRow :=
  (st.rows.filter fun r => sameKey r p a).mergeSort fun r1 r2 => decide (r2.id ≤ r1.id)

/-- src/index.js lines 94-105: `loadSession`: `.limit(1)` then
`data?.[0] || null`. -/
def loadSession (cfg : Bool) (st : Store) (p a : String) :
    Except String (Option SessionView) :=
  if cfg then Except.ok ((st.select p a).head?.map rowView)
  else Except.error "Supabase not configured"

/-- Store invariant: at most one row per (platform, account) key. -/
def Store.wf (st : Store) : Prop :=
  ∀ p a : String, (st.rows.filter fun r => sameKey r p a).length ≤ 1

/-- One upsert request: the body of a `/auth/set-cookies` call. -/
structure UpsertOp where
  platform : String
  account : String
  cookies : List JSItem
  user_agent : Option String
deriving DecidableEq, Repr

/-- The store after a sequence of upserts against the empty store. -/
def applyUpserts (ops : List UpsertOp) : Store :=
  ops.foldl
    (fun st op => (st.upsert op.platform op.account op.cookies op.user_agent).1)
    Store.empty

def op0 : UpsertOp :=
  { platform := "tiktok", account := "acct",
    cookies := [], user_agent := some "ua-one" }

def row1 : SessionRow :=
  { id := 1, platform := "tiktok", account := "acct",
    cookies := [], user_agent := some "ua-one" }

def st1 : Store := { rows := [row1], nextId := 2 }

/-!
## Browser-using request handlers

The handlers drive an opaque browser. The model keeps the handler control
flow of src/index.js exactly (which awaits can throw, which are wrapped in
`.catch(...)` and cannot, where `browser.close()` is called) and takes the
outcomes of the opaque operations from a `World`. Browser lifecycle
actions are recorded as events.
-/

/-- Observable browser actions. -/
inductive Ev where
  | launch
  | click
  | close
deriving DecidableEq, Repr

/-- Outcomes of the opaque store/browser operations during one request:
what `loadSession` yields, whether each `addCookies` call succeeds,
whether `page.goto` and the comments-panel `waitForLoadState` succeed,
which selectors the probes find, the item count, and whether per-item
reads/clicks succeed. -/
structure World where
  hasSupabase : Bool
  session : Option SessionView
  addCookiesOk : Nat → Bool
  gotoOk : Bool
  loadStateOk : Bool
  itemSel : Option String
  replySel : Option String
  itemCount : Nat
  replyBtnCount : Nat
  replyClickOk : Bool
  readOk : Nat → Bool

/-- The JSON object a handler sends back (absent fields are none). -/
structure Resp where
  ok : Bool
  error : Option String := none
  count : Option Nat := none
  url : Option String := none
  commentIndex : Option Int := none
  replyText : Option String := none
deriving DecidableEq, Repr

/-- src/index.js lines 247-270: `getContextWithSession`, as an event trace
plus either the thrown error or the injected cookie list. The browser is
launched after the session is loaded and translated; a rejected cookie
makes the injection loop rethrow AFTER the launch (line 263-265), so that
error carries the launch event with no close event. -/
def getContextWithSession (w : World) : List Ev × Except String (List PWCookie) :=
  if ¬ w.hasSupabase then ([], Except.error "Supabase not configured")
  else
    match w.session with
    | none => ([], Except.error "No session in DB for this account/platform")
    | some session =>
      let cookiesPW := toPlaywrightCookiesStrict session.cookies
      match (List.range cookiesPW.length).find? (fun i => ! w.addCookiesOk i) with
      | some i =>
        ([Ev.launch],
         Except.error ("cookie[" ++ toString i ++ "] \"" ++
           (((cookiesPW.get? i).map PWCookie.name).getD "") ++ "\": addCookies failed"))
      | none => ([Ev.launch], Except.ok cookiesPW)

/-- src/index.js lines 371-411: `tiktokFetchComments`. The steps that can
throw inside the try block are `getContextWithSession`, `page.goto` and
the `waitForLoadState` inside `openCommentsPanel`; every later browser
interaction is wrapped in `.catch(...)`. The catch path (lines 408-410)
returns the error response WITHOUT a close event. -/
def tiktokFetchComments (w : World) (videoUrl : Option String) (limit : Nat) :
    List Ev × Resp :=
  if ¬ optStrTruthy videoUrl then
    ([], { ok := false, error := some "Missing \"videoUrl\"" })
  else
    match getContextWithSession w with
    | (evs, Except.error e) => (evs, { ok := false, error := some e })
    | (evs, Except.ok _) =>
      if ¬ w.gotoOk then
        (evs, { ok := false, error := some "page.goto failed" })
      else if ¬ w.loadStateOk then
        (evs, { ok := false, error := some "waitForLoadState failed" })
      else
        match w.itemSel with
        | none =>
          (evs ++ [Ev.close], { ok := true, count := some 0, url := videoUrl })
        | some _ =>
          let take := min limit w.itemCount
          let comments := (List.range take).filter w.readOk
          (evs ++ [Ev.close],
           { ok := true, count := some comments.length, url := videoUrl })

/-- src/index.js lines 414-480: `tiktokReply`. The out-of-range check
(lines 437-440) closes the browser and answers before any click attempt;
on the success path the reply-button click and, if it did not register,
the fallback click on the input are attempted (both wrapped in
`.catch`). -/
def tiktokReply (w : World) (videoUrl replyText : Option String)
    (commentIndex : Int) : List Ev × Resp :=
  if ¬ (optStrTruthy videoUrl && optStrTruthy replyText) then
    ([], { ok := false, error := some "Missing \"videoUrl\" or \"replyText\"" })
  else
    match getContextWithSession w with
    | (evs, Except.error e) => (evs, { ok := false, error := some e })
    | (evs, Except.ok _) =>
      if ¬ w.gotoOk then
        (evs, { ok := false, error := some "page.goto failed" })
      else if ¬ w.loadStateOk then
        (evs, { ok := false, error := some "waitForLoadState failed" })
      else
        match w.itemSel with
        | none =>
          (evs ++ [Ev.close],
           { ok := false, error := some "No comment items found", url := videoUrl })
        | some _ =>
          if commentIndex < 0 ∨ (w.itemCount : Int) ≤ commentIndex then
            (evs ++ [Ev.close],
             { ok := false,
               error := some ("commentIndex " ++ toString commentIndex ++ " not found"),
               url := videoUrl })
          else
            let btnAttempt :=
              match w.replySel with
              | some _ => 0 < w.replyBtnCount
              | none => false
            let clicked := btnAttempt && w.replyClickOk
            let clickEvs :=
              (if btnAttempt then [Ev.click] else []) ++
              (if clicked then [] else [Ev.click])
            (evs ++ clickEvs ++ [Ev.close],
             { ok := true, url := videoUrl, commentIndex := some commentIndex,
               replyText := replyText })

def wLeak : World :=
  { hasSupabase := true,
    session := some { cookies := [], user_agent := none },
    addCookiesOk := fun _ => true,
    gotoOk := false, loadStateOk := true,
    itemSel := none, replySel := none,
    itemCount := 0, replyBtnCount := 0, replyClickOk := true,
    readOk := fun _ => true }

def wC7 : World :=
  { hasSupabase := true,
    session := some { cookies := [], user_agent := none },
    addCookiesOk := fun _ => true,
    gotoOk := true, loadStateOk := true,
    itemSel := some "item-sel", replySel := some "reply-sel",
    itemCount := 3, replyBtnCount := 1, replyClickOk := true,
    readOk := fun _ => true }

lemma keepEntry_eq_specKeepsEntry (c : JSItem) : keepEntry c = specKeepsEntry c := by
  cases c with
  | obj rc => simp [keepEntry, specKeepsEntry, JSItem.truthy]
  | prim v => simp [keepEntry, specKeepsEntry, JSItem.truthy, JSItem.getName]

lemma mapSameSite_nonempty (v : JSVal) (s : String) (h : mapSameSite v = some s) :
    0 < s.length := by
  rw [mapSameSite] at h
  simp only at h
  split_ifs at h <;> cases h <;> decide

/-- C1: the translator keeps exactly the entries whose `name` is a string
of positive length and whose `value` is not undefined; every other entry
is excluded, and no kept entry is excluded. -/
theorem toPlaywrightCookiesStrict_keeps_exactly (raw : List JSItem) :
    toPlaywrightCookiesStrict raw = (raw.filter specKeepsEntry).map translateEntry := by
  unfold toPlaywrightCookiesStrict
  rw [List.filter_congr (fun c _ => keepEntry_eq_specKeepsEntry c)]

/-- C2: for every kept entry whose `sameSite` normalizes to "None", the
translated cookie has `secure = true`, whatever the source `secure` was. -/
theorem translateEntry_secure_of_sameSite_none (c : JSItem)
    (hk : keepEntry c = true)
    (hss : mapSameSite c.getSameSite = some "None") :
    (translateEntry c).secure = true := by
  simp [translateEntry, hss]

theorem translateEntry_secure_of_sameSite_none_witness :
    (translateEntry cNoneLower).secure = true :=
  translateEntry_secure_of_sameSite_none cNoneLower (by decide) (by decide)

lemma translateEntry_expires_eq (c : JSItem) :
    (translateEntry c).expires =
      match jsToNumber (jsNullish c.getExpirationDate c.getExpiry) with
      | JSNum.fin q =>
        if 0 < q then some (if (10 : ℚ) ^ 12 < q then ⌊q / 1000⌋ else ⌊q⌋)
        else none
      | _ => none := by
  cases hexp : jsToNumber (jsNullish c.getExpirationDate c.getExpiry) with
  | fin q =>
    by_cases hq : 0 < q
    · by_cases hbig : (10 : ℚ) ^ 12 < q
      · simp [translateEntry, hexp, hq, hbig, Int.floor_intCast]
      · simp [translateEntry, hexp, hq, hbig]
    · simp [translateEntry, hexp, hq]
  | nan => simp [translateEntry, hexp]
  | posInf => simp [translateEntry, hexp]
  | negInf => simp [translateEntry, hexp]

/-- C3: for every kept entry, with e the numeric value of
`expirationDate` (falling back to `expiry` when nullish): if e is finite
and positive, `expires` is floor(e/1000) when e is above 10^12 and
floor(e) otherwise; if e is non-finite or nonpositive, no `expires` is
emitted. -/
theorem translateEntry_expires_spec (c : JSItem) (hk : keepEntry c = true) :
    (translateEntry c).expires =
      match jsToNumber (jsNullish c.getExpirationDate c.getExpiry) with
      | JSNum.fin q =>
        if 0 < q then some (if (10 : ℚ) ^ 12 < q then ⌊q / 1000⌋ else ⌊q⌋)
        else none
      | _ => none :=
  translateEntry_expires_eq c

theorem translateEntry_expires_spec_witness :
    (translateEntry cSec).expires = some 1700000000 := by
  have h := translateEntry_expires_spec cSec (by decide)
  rw [h]; decide

/-- C4: same-site normalization is the case-insensitive map lax to "Lax",
strict to "Strict", no_restriction / none to "None"; on any other string
and when `sameSite` is undefined or null, the translated cookie carries no
`sameSite` attribute. -/
theorem translateEntry_sameSite_spec (c : JSItem) :
    ((translateEntry c).sameSite = mapSameSite c.getSameSite) ∧
    (∀ s : String, c.getSameSite = JSVal.string s →
      (translateEntry c).sameSite =
        (if asciiToLower s = "lax" then some "Lax"
         else if asciiToLower s = "strict" then some "Strict"
         else if asciiToLower s = "no_restriction" ∨ asciiToLower s = "none" then some "None"
         else none)) ∧
    ((c.getSameSite = JSVal.undef ∨ c.getSameSite = JSVal.null) →
      (translateEntry c).sameSite = none) := by
  have h1 : (translateEntry c).sameSite = mapSameSite c.getSameSite := by
    cases hss : mapSameSite c.getSameSite with
    | none => simp [translateEntry, hss]
    | some s =>
      have hlen := mapSameSite_nonempty _ _ hss
      simp [translateEntry, hss, optStrTruthy, hlen]
  refine ⟨h1, ?_, ?_⟩
  · intro s hs
    rw [h1, hs]
    simp [mapSameSite, jsToString]
  · intro h
    rw [h1]
    rcases h with h | h <;> rw [h] <;> rfl

theorem translateEntry_sameSite_spec_witness :
    (translateEntry cStrictUp).sameSite = some "Strict" ∧
    (translateEntry cNoSame).sameSite = none := by
  constructor
  · have h := (translateEntry_sameSite_spec cStrictUp).2.1 "STRICT" rfl
    rw [h]; decide
  · exact (translateEntry_sameSite_spec cNoSame).2.2 (Or.inl rfl)

/-- C9: the concrete export with name "sessionid", value "abc",
sameSite "no_restriction" and expirationDate 1999999999000 translates to
exactly one cookie with sameSite "None", secure true, expires
1999999999. -/
theorem toPlaywright_c9 :
    toPlaywrightCookiesStrict [rawC9] =
      [{ name := "sessionid", value := "abc", url := "https://www.tiktok.com/",
         httpOnly := false, secure := true, sameSite := some "None",
         expires := some 1999999999 }] := by
  have h1 : toPlaywrightCookiesStrict [rawC9] = [translateEntry rawC9] := rfl
  have hexp : (translateEntry rawC9).expires = some 1999999999 := by
    rw [translateEntry_expires_eq]
    simp only [show jsToNumber (jsNullish rawC9.getExpirationDate rawC9.getExpiry) =
      JSNum.fin 1999999999000 from rfl]
    norm_num
  rw [h1]
  congr 1
  apply PWCookie.ext <;> first
    | exact hexp
    | decide

/-- C10: an entry with a nonempty string `name` and a null (not undefined)
`value` is kept, and its translated value is the empty string. -/
theorem translate_keeps_null_value (c : RawCookie) (s : String)
    (hname : c.name = JSVal.string s) (hlen : 0 < s.length)
    (hval : c.value = JSVal.null) :
    keepEntry (JSItem.obj c) = true ∧
    (translateEntry (JSItem.obj c)).value = "" := by
  constructor
  · simp [keepEntry, JSItem.truthy, JSItem.getName, JSItem.getValue, hname, hval, hlen]
  · simp [translateEntry, JSItem.getValue, hval, jsNullish, jsToString]

theorem translate_keeps_null_value_witness :
    keepEntry (JSItem.obj cNullVal) = true ∧
    (translateEntry (JSItem.obj cNullVal)).value = "" :=
  translate_keeps_null_value cNullVal "tok" rfl (by decide) rfl

lemma sameKey_iff (r : SessionRow) (p a : String) :
    sameKey r p a = true ↔ r.platform = p ∧ r.account = a := by
  simp [sameKey]

lemma filter_map_replace (l : List SessionRow) (P : SessionRow → Bool)
    (nr : SessionRow) (hnr : P nr = true) :
    ((l.map fun r => if P r then nr else r).filter P) =
      (l.filter P).map fun _ => nr := by
  induction l with
  | nil => rfl
  | cons r t ih =>
    cases hr : P r with
    | true => simp [List.filter_cons, hr, hnr, ih]
    | false => simp [List.filter_cons, hr, ih]

lemma filter_map_if_eq (l : List SessionRow) (P Q : SessionRow → Bool)
    (nr : SessionRow) (h1 : ∀ r, P r = true → Q r = false) (h2 : Q nr = false) :
    (l.map fun r => if P r then nr else r).filter Q = l.filter Q := by
  induction l with
  | nil => rfl
  | cons r t ih =>
    cases hr : P r with
    | true => simp [List.filter_cons, hr, h2, h1 r hr, ih]
    | false => simp [List.filter_cons, hr, ih]

lemma eq_singleton_of_length_le_one {α : Type} (l : List α) (h : l.length ≤ 1)
    (x : α) (hx : x ∈ l) : l = [x] := by
  cases l with
  | nil => cases hx
  | cons y t =>
    cases t with
    | nil =>
      cases hx with
      | head => rfl
      | tail _ h2 => cases h2
    | cons z u =>
      exfalso
      simp only [List.length_cons] at h
      omega

lemma upsert_filter_key (st : Store) (hwf : st.wf) (p a : String)
    (cookies : List JSItem) (ua : Option String) :
    (((st.upsert p a cookies ua).1).rows.filter fun r => sameKey r p a) =
      [(st.upsert p a cookies ua).2] := by
  cases hfind : st.rows.find? (fun r => sameKey r p a) with
  | some old =>
    have hPold : sameKey old p a = true := by
      have h := List.find?_some hfind
      exact h
    have hmem : old ∈ st.rows := List.mem_of_find?_eq_some hfind
    have hsingle : st.rows.filter (fun r => sameKey r p a) = [old] :=
      eq_singleton_of_length_le_one _ (hwf p a) old (List.mem_filter.mpr ⟨hmem, hPold⟩)
    have hnr : sameKey { old with cookies := cookies, user_agent := ua } p a = true := by
      simpa [sameKey] using hPold
    simp only [Store.upsert, hfind]
    rw [filter_map_replace _ _ _ hnr, hsingle]
    rfl
  | none =>
    have hnil : st.rows.filter (fun r => sameKey r p a) = [] := by
      rw [List.filter_eq_nil_iff]
      intro r hr
      exact (List.find?_eq_none.mp hfind) r hr
    have hnr : sameKey
        { id := st.nextId, platform := p, account := a,
          cookies := cookies, user_agent := ua } p a = true := by
      simp [sameKey]
    simp only [Store.upsert, hfind]
    rw [List.filter_append, hnil]
    simp [hnr]

lemma upsert_filter_other (st : Store) (p a : String) (cookies : List JSItem)
    (ua : Option String) (p' a' : String) (hne : ¬(p' = p ∧ a' = a)) :
    (((st.upsert p a cookies ua).1).rows.filter fun r => sameKey r p' a') =
      st.rows.filter fun r => sameKey r p' a' := by
  have hkey : ∀ r : SessionRow, sameKey r p a = true → sameKey r p' a' = false := by
    intro r hr
    obtain ⟨h1, h2⟩ := (sameKey_iff r p a).mp hr
    cases hq : sameKey r p' a' with
    | false => rfl
    | true =>
      obtain ⟨h3, h4⟩ := (sameKey_iff r p' a').mp hq
      exact absurd ⟨h3.symm.trans h1, h4.symm.trans h2⟩ hne
  cases hfind : st.rows.find? (fun r => sameKey r p a) with
  | some old =>
    have hPold : sameKey old p a = true := by
      have h := List.find?_some hfind
      exact h
    have hnrP : sameKey { old with cookies := cookies, user_agent := ua } p a = true := by
      simpa [sameKey] using hPold
    have hnrQ : sameKey { old with cookies := cookies, user_agent := ua } p' a' = false :=
      hkey _ hnrP
    simp only [Store.upsert, hfind]
    exact filter_map_if_eq _ _ _ _ hkey hnrQ
  | none =>
    have hnrP : sameKey
        { id := st.nextId, platform := p, account := a,
          cookies := cookies, user_agent := ua } p a = true := by
      simp [sameKey]
    have hnrQ : sameKey
        { id := st.nextId, platform := p, account := a,
          cookies := cookies, user_agent := ua } p' a' = false := hkey _ hnrP
    simp only [Store.upsert, hfind]
    rw [List.filter_append]
    simp [hnrQ]

lemma upsert_row_spec (st : Store) (p a : String) (cookies : List JSItem)
    (ua : Option String) :
    (st.upsert p a cookies ua).2.platform = p ∧
    (st.upsert p a cookies ua).2.account = a ∧
    (st.upsert p a cookies ua).2.cookies = cookies ∧
    (st.upsert p a cookies ua).2.user_agent = ua := by
  cases hfind : st.rows.find? (fun r => sameKey r p a) with
  | some old =>
    have hPold : sameKey old p a = true := by
      have h := List.find?_some hfind
      exact h
    obtain ⟨h1, h2⟩ := (sameKey_iff old p a).mp hPold
    simp [Store.upsert, hfind, h1, h2]
  | none =>
    simp [Store.upsert, hfind]

lemma Store.wf_upsert (st : Store) (hwf : st.wf) (p a : String)
    (cookies : List JSItem) (ua : Option String) :
    ((st.upsert p a cookies ua).1).wf := by
  intro p' a'
  by_cases h : p' = p ∧ a' = a
  · obtain ⟨h1, h2⟩ := h
    subst h1; subst h2
    rw [upsert_filter_key st hwf p' a' cookies ua]
    simp
  · rw [upsert_filter_other st p a cookies ua p' a' h]
    exact hwf p' a'

lemma Store.wf_empty : Store.empty.wf := by
  intro p a
  simp [Store.empty]

lemma wf_foldl (ops : List UpsertOp) (st : Store) (h : st.wf) :
    (ops.foldl
      (fun st op => (st.upsert op.platform op.account op.cookies op.user_agent).1)
      st).wf := by
  induction ops generalizing st with
  | nil => exact h
  | cons op t ih => exact ih _ (Store.wf_upsert _ h _ _ _ _)

lemma wf_applyUpserts (ops : List UpsertOp) : (applyUpserts ops).wf :=
  wf_foldl ops Store.empty Store.wf_empty

/-- C5: after any sequence of upserts against the keyed store, ending with
a second (or later) upsert for a (platform, account) pair, exactly one
record for the pair remains, it is the last write in full (no field-level
merge), and `loadSession` retrieves exactly it. -/
theorem upsertSession_c5 (ops : List UpsertOp) (p a : String)
    (cookies : List JSItem) (ua : Option String)
    (hprev : ∃ op ∈ ops, op.platform = p ∧ op.account = a) :
    ∃ st2 row,
      upsertSession true (applyUpserts ops) p a cookies ua = Except.ok (st2, row) ∧
      (st2.rows.filter fun r => sameKey r p a) = [row] ∧
      row.platform = p ∧ row.account = a ∧
      row.cookies = cookies ∧ row.user_agent = uaOrNull ua ∧
      loadSession true st2 p a =
        Except.ok (some { cookies := cookies, user_agent := uaOrNull ua }) := by
  obtain ⟨hp, ha, hc, hu⟩ := upsert_row_spec (applyUpserts ops) p a cookies (uaOrNull ua)
  have hwf := wf_applyUpserts ops
  have hfil := upsert_filter_key (applyUpserts ops) hwf p a cookies (uaOrNull ua)
  refine ⟨((applyUpserts ops).upsert p a cookies (uaOrNull ua)).1,
    ((applyUpserts ops).upsert p a cookies (uaOrNull ua)).2,
    rfl, hfil, hp, ha, hc, hu, ?_⟩
  have hsel : ((applyUpserts ops).upsert p a cookies (uaOrNull ua)).1.select p a =
      [((applyUpserts ops).upsert p a cookies (uaOrNull ua)).2] := by
    unfold Store.select
    rw [hfil]
    exact List.mergeSort_singleton _
  simp [loadSession, hsel, rowView, hc, hu]

theorem upsertSession_c5_witness :
    ∃ st2 row,
      upsertSession true (applyUpserts [op0]) "tiktok" "acct"
        [JSItem.prim (JSVal.string "x")] (some "ua-two") = Except.ok (st2, row) ∧
      (st2.rows.filter fun r => sameKey r "tiktok" "acct") = [row] ∧
      row.platform = "tiktok" ∧ row.account = "acct" ∧
      row.cookies = [JSItem.prim (JSVal.string "x")] ∧
      row.user_agent = uaOrNull (some "ua-two") ∧
      loadSession true st2 "tiktok" "acct" =
        Except.ok (some { cookies := [JSItem.prim (JSVal.string "x")],
                          user_agent := uaOrNull (some "ua-two") }) :=
  upsertSession_c5 [op0] "tiktok" "acct" [JSItem.prim (JSVal.string "x")]
    (some "ua-two") ⟨op0, by simp, rfl, rfl⟩

/-- C8: with the store configured, loading a pair with no matching row
returns an explicit absent result (ok none) rather than an error; when a
match exists, the returned record is a matching row of maximal id. -/
lemma idDescTrans (x y z : SessionRow) :
    decide (y.id ≤ x.id) = true → decide (z.id ≤ y.id) = true →
    decide (z.id ≤ x.id) = true := by
  simp only [decide_eq_true_eq]
  omega

lemma idDescTotal (x y : SessionRow) :
    (decide (y.id ≤ x.id) || decide (x.id ≤ y.id)) = true := by
  rcases Nat.le_total y.id x.id with h | h <;> simp [h]

theorem loadSession_c8 (st : Store) (p a : String) :
    ((st.rows.filter fun r => sameKey r p a) = [] →
      loadSession true st p a = Except.ok none) ∧
    (∀ r0 ∈ st.rows, sameKey r0 p a = true →
      ∃ r ∈ st.rows, sameKey r p a = true ∧
        loadSession true st p a = Except.ok (some (rowView r)) ∧
        ∀ rr ∈ st.rows, sameKey rr p a = true → rr.id ≤ r.id) := by
  constructor
  · intro h
    simp [loadSession, Store.select, h]
  · intro r0 h0 hk0
    have hmem : r0 ∈ st.rows.filter fun r => sameKey r p a :=
      List.mem_filter.mpr ⟨h0, hk0⟩
    cases hms : (st.rows.filter fun r => sameKey r p a).mergeSort
        (fun r1 r2 => decide (r2.id ≤ r1.id)) with
    | nil =>
      exfalso
      have hmm : r0 ∈ (st.rows.filter fun x => sameKey x p a).mergeSort
          (fun r1 r2 => decide (r2.id ≤ r1.id)) := List.mem_mergeSort.mpr hmem
      rw [hms] at hmm
      cases hmm
    | cons r rest =>
      have hrmem : r ∈ st.rows.filter fun x => sameKey x p a := by
        have hin : r ∈ (st.rows.filter fun x => sameKey x p a).mergeSort
            (fun r1 r2 => decide (r2.id ≤ r1.id)) := by
          rw [hms]
          exact List.mem_cons_self r rest
        exact List.mem_mergeSort.mp hin
      obtain ⟨hrrows, hrkey⟩ := List.mem_filter.mp hrmem
      refine ⟨r, hrrows, hrkey, ?_, ?_⟩
      · simp [loadSession, Store.select, hms]
      · intro rr hrr hkrr
        have hrrmem : rr ∈ (st.rows.filter fun x => sameKey x p a).mergeSort
            (fun r1 r2 => decide (r2.id ≤ r1.id)) :=
          List.mem_mergeSort.mpr (List.mem_filter.mpr ⟨hrr, hkrr⟩)
        rw [hms] at hrrmem
        have hsorted := List.sorted_mergeSort idDescTrans idDescTotal
          (st.rows.filter fun x => sameKey x p a)
        rw [hms] at hsorted
        rcases List.mem_cons.mp hrrmem with h | h
        · subst h
          exact Nat.le_refl _
        · have hle := (List.pairwise_cons.mp hsorted).1 rr h
          simpa using hle

theorem loadSession_c8_witness :
    loadSession true st1 "x" "y" = Except.ok none ∧
    (∃ r ∈ st1.rows, sameKey r "tiktok" "acct" = true ∧
      loadSession true st1 "tiktok" "acct" = Except.ok (some (rowView r)) ∧
      ∀ rr ∈ st1.rows, sameKey rr "tiktok" "acct" = true → rr.id ≤ r.id) := by
  constructor
  · exact (loadSession_c8 st1 "x" "y").1 (by decide)
  · exact (loadSession_c8 st1 "tiktok" "acct").2 row1 (by decide) (by decide)

/-- C6 (refuted): in the fetch-comments handler, when `page.goto` throws
after the browser was launched, the catch path returns the soft-failure
response while the trace holds the launch event and NO close event: this
execution leaves the browser session unclosed, against the claim that
every exit path closes it. -/
theorem tiktokFetchComments_leaks_browser :
    (tiktokFetchComments wLeak (some "https://www.tiktok.com/@x/video/1") 5).1 =
      [Ev.launch] ∧
    Ev.close ∉ (tiktokFetchComments wLeak (some "https://www.tiktok.com/@x/video/1") 5).1 ∧
    (tiktokFetchComments wLeak (some "https://www.tiktok.com/@x/video/1") 5).2.ok = false := by
  refine ⟨rfl, ?_, rfl⟩
  decide

/-- C7: a reply request whose commentIndex is negative or not below the
discovered item count gets a soft failure naming the out-of-range index,
with no click performed (and the browser closed beforehand). -/
theorem tiktokReply_c7 (w : World) (sv : SessionView) (u t : String) (idx : Int)
    (hu : 0 < u.length) (ht : 0 < t.length)
    (hsb : w.hasSupabase = true) (hsession : w.session = some sv)
    (hcookies : ∀ i, w.addCookiesOk i = true)
    (hgoto : w.gotoOk = true) (hload : w.loadStateOk = true)
    (sel : String) (hitem : w.itemSel = some sel)
    (hrange : idx < 0 ∨ (w.itemCount : Int) ≤ idx) :
    (tiktokReply w (some u) (some t) idx).2.ok = false ∧
    (tiktokReply w (some u) (some t) idx).2.error =
      some ("commentIndex " ++ toString idx ++ " not found") ∧
    Ev.click ∉ (tiktokReply w (some u) (some t) idx).1 ∧
    Ev.close ∈ (tiktokReply w (some u) (some t) idx).1 := by
  have hfind : (List.range (toPlaywrightCookiesStrict sv.cookies).length).find?
      (fun i => ! w.addCookiesOk i) = none := by
    rw [List.find?_eq_none]
    intro i _
    simp [hcookies i]
  have hctx : getContextWithSession w =
      ([Ev.launch], Except.ok (toPlaywrightCookiesStrict sv.cookies)) := by
    simp [getContextWithSession, hsb, hsession, hfind]
  have hoptu : optStrTruthy (some u) = true := by
    simpa [optStrTruthy] using hu
  have hoptt : optStrTruthy (some t) = true := by
    simpa [optStrTruthy] using ht
  have hru : tiktokReply w (some u) (some t) idx =
      ([Ev.launch, Ev.close],
       { ok := false,
         error := some ("commentIndex " ++ toString idx ++ " not found"),
         url := some u }) := by
    simp [tiktokReply, hoptu, hoptt, hctx, hgoto, hload, hitem, hrange]
  rw [hru]
  refine ⟨rfl, rfl, ?_, ?_⟩ <;> simp

theorem tiktokReply_c7_witness :
    (tiktokReply wC7 (some "https://u") (some "hi") 5).2.ok = false ∧
    (tiktokReply wC7 (some "https://u") (some "hi") 5).2.error =
      some ("commentIndex " ++ toString (5 : Int) ++ " not found") ∧
    Ev.click ∉ (tiktokReply wC7 (some "https://u") (some "hi") 5).1 ∧
    Ev.close ∈ (tiktokReply wC7 (some "https://u") (some "hi") 5).1 :=
  tiktokReply_c7 wC7 { cookies := [], user_agent := none } "https://u" "hi" 5
    (by decide) (by decide) rfl rfl (fun i => rfl) rfl rfl "item-sel" rfl
    (Or.inr (by decide))
